import Mathlib

/-!
Verification of the AOS Python event-loop runtime (`aos/events/event_loop_runtime.py`)
against its natural-language specification.

The embedding translates the Python classes into Lean:
* mutable objects become explicit state records, methods become state-passing
  functions;
* a Python exception becomes `Except PyError`;
* a coroutine (`Task`) is identified by a numeric id; the synchronous code of each
  `async` method up to its first `await` is embedded as a function, and the act of
  resuming a task is recorded as an event in a trace (task bodies are opaque, so a
  resumption carries an oracle telling whether the coroutine raised `StopIteration`);
* the callbacks registered on a `Future` in this module are always a single bound
  method of the owning object, so the callback slot is modelled as `Unit` and the
  caller of `set_result` interprets each returned `Unit` by running the embedded
  body of that bound method.
-/

/-- The exceptions raised by the module (plus Python built-ins it can hit). -/
inductive PyError
  | futureAlreadyDone
  | futureResultNotReady
  | runtimeError
  | attributeError
deriving DecidableEq, Repr

/-- `_FutureState` from the source: a binary state enum. -/
inductive FutureState
  | pending
  | finished
deriving DecidableEq, Repr

/-- The `Future` class: state, stored result (`none` = not yet set), and the ordered
list of registered completion callbacks. -/
structure Future (α : Type) (κ : Type) where
  state : FutureState
  resultVal : Option α
  callbacks : List κ
deriving DecidableEq, Repr

/-- `Future.__init__`: state PENDING, no result, no callbacks. -/
def Future.new {α κ : Type} : Future α κ := ⟨.pending, none, []⟩

/-- `Future.done`: `self._state != _FutureState.PENDING`. -/
def Future.done {α κ : Type} (f : Future α κ) : Bool :=
  f.state != .pending

/-- `Future.add_done_callback`: invoke `fn` now if done (second component is the
list of callbacks invoked by this call), else append it to the queue. -/
def Future.add_done_callback {α κ : Type} (f : Future α κ) (fn : κ) :
    Future α κ × List κ :=
  if f.done then (f, [fn])
  else ({ f with callbacks := f.callbacks ++ [fn] }, [])

/-- `Future.set_result`: fails if already done; otherwise stores the result, flips
the state to FINISHED, and invokes all queued callbacks in order
(`__invoke_callbacks` iterates the queue then clears it); the invoked callbacks are
returned in invocation order. -/
def Future.set_result {α κ : Type} (f : Future α κ) (v : α) :
    Except PyError (Future α κ × List κ) :=
  if f.done then .error .futureAlreadyDone
  else .ok (⟨.finished, some v, []⟩, f.callbacks)

/-- `Future.result`: fails while pending, otherwise returns the stored value. -/
def Future.result {α κ : Type} (f : Future α κ) : Except PyError (Option α) :=
  if f.done then .ok f.resultVal else .error .futureResultNotReady

/-- The `Channel` class: name plus the fully-qualified type string (the source
derives the latter from the flatbuffers class's module name; the embedding takes
the resulting string directly). -/
structure Channel where
  name : String
  type : String
deriving DecidableEq, Repr

/-- `Channel.channel_uid`: `"-".join([self._name, self._type])`, computed once in
`__init__` and stored as `self._uid`. -/
def Channel.channel_uid (c : Channel) : String :=
  c.name ++ "-" ++ c.type

/-- `Channel.__eq__` (for another Channel): `self._uid == other.channel_uid()`. -/
def Channel.eq (a b : Channel) : Bool :=
  a.channel_uid == b.channel_uid

/-- `Channel.__hash__`: `hash(self._uid)` — a function of the uid string alone. -/
def Channel.hashVal (c : Channel) : UInt64 :=
  c.channel_uid.hash

/-- Resumption trace events: the Runtime's active-task marker being set, and a
task's coroutine being resumed (the Bool records whether `coro.send(None)` raised
`StopIteration`, i.e. the task completed by exhaustion — always swallowed). -/
inductive Ev
  | setCur : Option Nat → Ev
  | resume : Nat → Bool → Ev
deriving DecidableEq, Repr

/-- The three steps every Runtime-driven resumption of task `t` performs:
`_set_current_task(t)`, `t.resume()` (StopIteration swallowed), and — in the
`finally` block — `_set_current_task(None)`. `exh` is the exhaustion oracle. -/
def bracket (exh : Nat → Bool) (t : Nat) : List Ev :=
  [.setCur (some t), .resume t (exh t), .setCur none]

/-- The value of the Runtime's `_current_task` marker after a trace: the argument
of the last `_set_current_task` call, or the initial value if none occurred. -/
def finalMarker (init : Option Nat) (tr : List Ev) : Option Nat :=
  tr.foldl (fun c e => match e with | .setCur t => t | .resume _ _ => c) init

/-- A trace that is a concatenation of complete resumption brackets. -/
def WellBracketed (exh : Nat → Bool) (tr : List Ev) : Prop :=
  ∃ ts : List Nat, tr = (ts.map (bracket exh)).flatten

/-- The `Timer` class: identity (models Python object identity), the owning task
(`self._task`, bound in `__init__`), the pending tick Future (`self._on_tick`,
initially None), and the armed/disabled state of the wrapped native C timer (not a
Python field; modelled from the spec's engine contract `handle.schedule` /
`handle.disable`). -/
structure Timer where
  tmid : Nat
  task : Nat
  onTick : Option (Future Unit Unit)
  cEnabled : Bool
deriving DecidableEq, Repr

/-- `Timer.schedule`: forwards to the native handle, arming the timer
(C side modelled from the spec; no Python-side state is touched). -/
def Timer.schedule (t : Timer) : Timer :=
  { t with cEnabled := true }

/-- `Timer.cancel`: `self._c_timer_handle.disable(self._c_timer_handle)` — the one
and only statement of the method; it disables the native timer and touches nothing
else. -/
def Timer.cancel (t : Timer) : Timer :=
  { t with cEnabled := false }

/-- The synchronous code of `async Timer.tick` up to `await self._on_tick`:
install a fresh Future and register `__resume_on_tick` as its sole callback. -/
def Timer.tick (t : Timer) : Timer :=
  { t with onTick := some (Future.new.add_done_callback ()).1 }

/-- `Timer.__resume_on_tick`: raise if `_on_tick` is not done (AttributeError if it
is still None), else resume the owning task under the active-task bracket. -/
def Timer.resume_on_tick (exh : Nat → Bool) (t : Timer) : Except PyError (List Ev) :=
  match t.onTick with
  | none => .error .attributeError
  | some f => if f.done then .ok (bracket exh t.task) else .error .futureResultNotReady

/-- Runs `__resume_on_tick` once per callback returned by `set_result`
(`__invoke_callbacks` invocation loop, specialised to the Timer's future). -/
def Timer.tickInvokeAll (exh : Nat → Bool) : List Unit → Timer → Except PyError (List Ev)
  | [], _ => .ok []
  | _ :: rest, t =>
    match Timer.resume_on_tick exh t with
    | .error e => .error e
    | .ok evs =>
      match Timer.tickInvokeAll exh rest t with
      | .error e => .error e
      | .ok evs2 => .ok (evs ++ evs2)

/-- `Timer._timer_callback` (the native firing): if `_on_tick` is None or already
done, the firing is dropped silently (the timer was scheduled but not awaited);
otherwise `_on_tick.set_result()` resolves the Future, which synchronously invokes
its callbacks — each being `__resume_on_tick`, resuming the owning task. -/
def Timer.timer_callback (exh : Nat → Bool) (t : Timer) : Except PyError (Timer × List Ev) :=
  match t.onTick with
  | none => .ok (t, [])
  | some f =>
    if f.done then .ok (t, [])
    else
      match f.set_result () with
      | .error e => .error e
      | .ok (f1, invoked) =>
        let t1 := { t with onTick := some f1 }
        match Timer.tickInvokeAll exh invoked t1 with
        | .error e => .error e
        | .ok evs => .ok (t1, evs)

/-- Raw message buffers (the bytes the watcher callback hands over). -/
abbrev Msg := String

/-- `d[k] = v` on an insertion-ordered dict represented as an association list: an
existing key keeps its position and gets the new value, a new key is appended. -/
def odSet (l : List (Option Nat × Bool)) (k : Option Nat) (v : Bool) :
    List (Option Nat × Bool) :=
  if l.any (fun p => p.1 == k) then l.map (fun p => if p.1 == k then (p.1, v) else p)
  else l ++ [(k, v)]

/-- The task ids whose "wants next" flag is set, in dict (registration) order. -/
def wantsNext (items : List (Option Nat × Bool)) : List Nat :=
  items.filterMap (fun p => if p.2 then p.1 else none)

/-- The `Fetcher` class: identity (models Python object identity), its Channel, the
insertion-ordered dict `_tasks` mapping each registered task (the source registers
whatever `_get_current_task()` returns, possibly `None`) to its "wants next" flag,
the shared pending Future `_on_message`, and `_last_message`. The C fetcher/watcher
handles carry no Python-visible state. -/
structure Fetcher where
  fid : Nat
  channel : Channel
  tasks : List (Option Nat × Bool)
  onMessage : Option (Future Msg Unit)
  lastMessage : Option Msg
deriving DecidableEq, Repr

/-- `Fetcher.register_task`: refused while the runtime is running, else
`self._tasks[task] = False`. -/
def Fetcher.register_task (running : Bool) (f : Fetcher) (task : Option Nat) :
    Except PyError Fetcher :=
  if running then .error .runtimeError
  else .ok { f with tasks := odSet f.tasks task false }

/-- The synchronous code of `async Fetcher.next` up to `await self._on_message`: if
`_on_message` is absent or resolved, install a fresh Future whose sole callback is
`__resume_on_message`; then the calling task (the runtime's current task) must be a
key of `_tasks`, and its "wants next" flag is set. -/
def Fetcher.next (f : Fetcher) (cur : Option Nat) : Except PyError Fetcher :=
  let f :=
    match f.onMessage with
    | none => { f with onMessage := some (Future.new.add_done_callback ()).1 }
    | some m =>
      if m.done then { f with onMessage := some (Future.new.add_done_callback ()).1 }
      else f
  if f.tasks.any (fun p => p.1 == cur) then .ok { f with tasks := odSet f.tasks cur true }
  else .error .runtimeError

/-- The loop of `__resume_on_message` over the snapshot `items` of `self._tasks`
(during the loop only the entry of the task currently being resumed can change, and
the loop has already passed it, so iterating the snapshot agrees with iterating the
live dict). Entries whose flag is clear are skipped. A flagged entry is resumed
under the active-task bracket after its flag is cleared; the resumed coroutine
returns from `await` and receives `parse(self._last_message)` — recorded in the
delivery list as the buffer it parses — and, when the `beh` oracle says the task
body immediately awaits `next()` again, that re-entrant call runs against the
current fetcher state before the loop continues. A flagged `None` key would make
`task.resume()` raise AttributeError. -/
def Fetcher.fanout (exh beh : Nat → Bool) (items : List (Option Nat × Bool))
    (f : Fetcher) : Except PyError (Fetcher × List Ev × List (Nat × Option Msg)) :=
  match items with
  | [] => .ok (f, [], [])
  | (k, b) :: rest =>
    if b then
      match k with
      | none => .error .attributeError
      | some t =>
        let f1 := { f with tasks := odSet f.tasks k false }
        let delivered := f1.lastMessage
        match (if beh t then Fetcher.next f1 (some t) else .ok f1) with
        | .error e => .error e
        | .ok f2 =>
          match Fetcher.fanout exh beh rest f2 with
          | .error e => .error e
          | .ok (f3, evs, del) => .ok (f3, bracket exh t ++ evs, (t, delivered) :: del)
    else Fetcher.fanout exh beh rest f

/-- `Fetcher.__resume_on_message`: raise if `_on_message` is not done, else store
`_on_message.result()` into `_last_message` and run the fan-out loop over
`_tasks`. -/
def Fetcher.resume_on_message (exh beh : Nat → Bool) (f : Fetcher) :
    Except PyError (Fetcher × List Ev × List (Nat × Option Msg)) :=
  match f.onMessage with
  | none => .error .attributeError
  | some m =>
    if m.done then
      Fetcher.fanout exh beh f.tasks { f with lastMessage := m.resultVal }
    else .error .futureResultNotReady

/-- Runs `__resume_on_message` once per callback returned by `set_result`
(`__invoke_callbacks`, specialised to the fetcher's future). -/
def Fetcher.invokeAll (exh beh : Nat → Bool) : List Unit → Fetcher →
    Except PyError (Fetcher × List Ev × List (Nat × Option Msg))
  | [], f => .ok (f, [], [])
  | _ :: rest, f =>
    match Fetcher.resume_on_message exh beh f with
    | .error e => .error e
    | .ok (f1, evs, del) =>
      match Fetcher.invokeAll exh beh rest f1 with
      | .error e => .error e
      | .ok (f2, evs2, del2) => .ok (f2, evs ++ evs2, del ++ del2)

/-- `Fetcher._watcher_callback` (a message arrives on the channel): if
`_on_message` is absent or already resolved the arrival is dropped; otherwise
`_on_message.set_result(buffer)` resolves it, which synchronously invokes its
callbacks — each being `__resume_on_message`. -/
def Fetcher.watcher_callback (exh beh : Nat → Bool) (f : Fetcher) (buf : Msg) :
    Except PyError (Fetcher × List Ev × List (Nat × Option Msg)) :=
  match f.onMessage with
  | none => .ok (f, [], [])
  | some m =>
    if m.done then .ok (f, [], [])
    else
      match m.set_result buf with
      | .error e => .error e
      | .ok (m1, invoked) =>
        Fetcher.invokeAll exh beh invoked { f with onMessage := some m1 }

/-- The net effect of a fan-out on the `_tasks` dict: every entry whose task was
resumed ends with its flag equal to `beh` of it (cleared at resumption, re-set
exactly when the body awaited `next()` again); all other entries are untouched. -/
def applyResumed (beh : Nat → Bool) (resumed : List Nat)
    (ts : List (Option Nat × Bool)) : List (Option Nat × Bool) :=
  ts.map (fun p => match p.1 with
    | some t => if t ∈ resumed then (some t, beh t) else p
    | none => p)

/-- A concrete execution: tasks 1 then 2 register with a fetcher (in that order);
then task 2 calls `next()` FIRST and task 1 second, so the order of first `next()`
calls is [2, 1] while the registration order is [1, 2]. -/
def c2setup : Except PyError Fetcher := do
  let f0 : Fetcher := ⟨0, ⟨"n", "T"⟩, [], none, none⟩
  let f1 ← f0.register_task false (some 1)
  let f2 ← f1.register_task false (some 2)
  let f3 ← f2.next (some 2)
  f3.next (some 1)

/-- The `EventLoopRuntime` state: the engine's `is_running()` flag (read through
the C binding), the owned collections (`_timers`, `_fetchers`, `_senders`,
`_tasks` — the last in spawn order, each task carrying its `_resume_on_run`
flag), the current-task marker, the `_on_run` Future (`None` before `init()`),
and a counter allocating fresh object identities (modelling Python object
identity, needed by the deduplication claims). -/
structure RuntimeState where
  running : Bool
  timers : List Timer
  fetchers : List (Channel × Fetcher)
  senders : List (Channel × Nat)
  tasks : List (Nat × Bool)
  currentTask : Option Nat
  onRun : Option (Future Unit Unit)
  nextId : Nat
deriving Repr

/-- `Timer.__init__`: refuse while running; create the native timer (no
Python-visible state); `_on_tick` starts as None; bind `_task` to the runtime's
current task, raising RuntimeError if there is none (a Task object is always
truthy, so `if not self._task` tests for None). The fresh `tmid` models the new
object's identity. -/
def Timer.init (rt : RuntimeState) : Except PyError (RuntimeState × Timer) :=
  if rt.running then .error .runtimeError
  else
    match rt.currentTask with
    | none => .error .runtimeError
    | some t => .ok ({ rt with nextId := rt.nextId + 1 }, ⟨rt.nextId, t, none, false⟩)

/-- `EventLoopRuntime.add_timer`: construct a Timer, append it to `_timers`. -/
def EventLoopRuntime.add_timer (rt : RuntimeState) :
    Except PyError (RuntimeState × Timer) :=
  match Timer.init rt with
  | .error e => .error e
  | .ok (rt1, tm) => .ok ({ rt1 with timers := rt1.timers ++ [tm] }, tm)

/-- `Fetcher.__init__`: refuse while running; install the watcher and the C
fetcher (no Python-visible state); empty task dict, no pending shared Future, no
last message. The fresh `fid` models the new object's identity. -/
def Fetcher.init (rt : RuntimeState) (ch : Channel) :
    Except PyError (RuntimeState × Fetcher) :=
  if rt.running then .error .runtimeError
  else .ok ({ rt with nextId := rt.nextId + 1 }, ⟨rt.nextId, ch, [], none, none⟩)

/-- `Sender.__init__`: refuse while running; make the C sender (a Sender has no
Python-visible state beyond its identity, returned as a fresh id). -/
def Sender.init (rt : RuntimeState) : Except PyError (RuntimeState × Nat) :=
  if rt.running then .error .runtimeError
  else .ok ({ rt with nextId := rt.nextId + 1 }, rt.nextId)

/-- Write back a fetcher mutated in place into the dict entry it was read from
(the dict keeps its original key object). -/
def updateFetcher (l : List (Channel × Fetcher)) (ch : Channel) (f : Fetcher) :
    List (Channel × Fetcher) :=
  l.map (fun p => if Channel.eq p.1 ch then (p.1, f) else p)

/-- `EventLoopRuntime.make_fetcher`: build the Channel; reuse the fetcher stored
under an equal channel if present (`channel in self._fetchers` uses Channel
equality), else construct and store a new one; then register the runtime's
current task with it. -/
def EventLoopRuntime.make_fetcher (rt : RuntimeState)
    (channel_name channel_type : String) : Except PyError (RuntimeState × Fetcher) :=
  let ch : Channel := ⟨channel_name, channel_type⟩
  match rt.fetchers.find? (fun p => Channel.eq p.1 ch) with
  | some (_, f0) =>
    match f0.register_task rt.running rt.currentTask with
    | .error e => .error e
    | .ok f1 => .ok ({ rt with fetchers := updateFetcher rt.fetchers ch f1 }, f1)
  | none =>
    match Fetcher.init rt ch with
    | .error e => .error e
    | .ok (rt1, f0) =>
      match f0.register_task rt1.running rt1.currentTask with
      | .error e => .error e
      | .ok f1 => .ok ({ rt1 with fetchers := rt1.fetchers ++ [(ch, f1)] }, f1)

/-- `EventLoopRuntime.make_sender`: return the cached Sender stored under an
equal channel if present — without any run-state check — else construct and
cache a new one. -/
def EventLoopRuntime.make_sender (rt : RuntimeState)
    (channel_name channel_type : String) : Except PyError (RuntimeState × Nat) :=
  let ch : Channel := ⟨channel_name, channel_type⟩
  match rt.senders.find? (fun p => Channel.eq p.1 ch) with
  | some (_, s) => .ok (rt, s)
  | none =>
    match Sender.init rt with
    | .error e => .error e
    | .ok (rt1, s) => .ok ({ rt1 with senders := rt1.senders ++ [(ch, s)] }, s)

/-- `Future.__init__` as invoked in a given runtime state: the constructor
consults nothing — in particular it performs NO `is_running` check (the source
itself constructs Futures while running, inside `tick()` and `next()`). The
runtime argument is taken only so the lifecycle claim can be stated; the body
ignores it exactly as the source constructor does. -/
def futureCreate (α κ : Type) (_rt : RuntimeState) : Except PyError (Future α κ) :=
  .ok Future.new

/-- `EventLoopRuntime.init`: register `_on_run_callback` with the engine and
install the `_on_run` Future with `__resume_on_run` as its sole callback. -/
def EventLoopRuntime.init (rt : RuntimeState) : RuntimeState :=
  { rt with onRun := some (Future.new.add_done_callback ()).1 }

/-- The synchronous code of `async EventLoopRuntime.on_run` up to
`await self._on_run`: RuntimeError before `init()` (no `_on_run`) and while
running; otherwise set the current task's `_resume_on_run` flag (an absent
current task would be `None._resume_on_run`, AttributeError) and await. -/
def EventLoopRuntime.on_run (rt : RuntimeState) : Except PyError RuntimeState :=
  match rt.onRun with
  | none => .error .runtimeError
  | some _ =>
    if rt.running then .error .runtimeError
    else
      match rt.currentTask with
      | none => .error .attributeError
      | some t =>
        .ok { rt with tasks := rt.tasks.map (fun p => if p.1 == t then (p.1, true) else p) }

/-- `EventLoopRuntime.__start`: drive the task's first `resume()` under the
active-task bracket; the marker afterwards is whatever the last
`_set_current_task` of the trace set (None). -/
def EventLoopRuntime.start (exh : Nat → Bool) (rt : RuntimeState) (t : Nat) :
    RuntimeState × List Ev :=
  ({ rt with currentTask := finalMarker rt.currentTask (bracket exh t) }, bracket exh t)

/-- `EventLoopRuntime.spawn_task`: wrap the coroutine in a fresh Task
(`_resume_on_run` false), append it to `_tasks`, and immediately drive it once
via `__start`, regardless of run state. -/
def EventLoopRuntime.spawn_task (exh : Nat → Bool) (rt : RuntimeState) :
    RuntimeState × Nat × List Ev :=
  let t := rt.nextId
  let rt1 := { rt with nextId := rt.nextId + 1, tasks := rt.tasks ++ [(t, false)] }
  let r := EventLoopRuntime.start exh rt1 t
  (r.1, t, r.2)

/-- `EventLoopRuntime.__resume_on_run`: raise if `_on_run` is not done; else
resume, in spawn order, every task whose `_resume_on_run` flag is set, each under
the active-task bracket (the flags are not cleared). -/
def EventLoopRuntime.resume_on_run (exh : Nat → Bool) (rt : RuntimeState) :
    Except PyError (RuntimeState × List Ev) :=
  match rt.onRun with
  | none => .error .attributeError
  | some m =>
    if m.done then
      let evs := ((rt.tasks.filter (fun p => p.2)).map (fun p => bracket exh p.1)).flatten
      .ok ({ rt with currentTask := finalMarker rt.currentTask evs }, evs)
    else .error .futureResultNotReady

/-- Runs `__resume_on_run` once per callback returned by `set_result`. -/
def EventLoopRuntime.runInvokeAll (exh : Nat → Bool) : List Unit → RuntimeState →
    Except PyError (RuntimeState × List Ev)
  | [], rt => .ok (rt, [])
  | _ :: rest, rt =>
    match EventLoopRuntime.resume_on_run exh rt with
    | .error e => .error e
    | .ok (rt1, evs) =>
      match EventLoopRuntime.runInvokeAll exh rest rt1 with
      | .error e => .error e
      | .ok (rt2, evs2) => .ok (rt2, evs ++ evs2)

/-- The engine entering its run phase (the `running := true` step and the "fires
exactly once at run-phase start" timing are the engine's side, modelled from the
spec's engine contract): `is_running()` becomes true and the registered
`_on_run_callback` runs, resolving `_on_run`, whose completion invokes
`__resume_on_run`. -/
def EventLoopRuntime.run_entry (exh : Nat → Bool) (rt : RuntimeState) :
    Except PyError (RuntimeState × List Ev) :=
  let rt0 := { rt with running := true }
  match rt0.onRun with
  | none => .error .attributeError
  | some m =>
    match m.set_result () with
    | .error e => .error e
    | .ok (m1, invoked) =>
      EventLoopRuntime.runInvokeAll exh invoked { rt0 with onRun := some m1 }

/-- Whether a call completed without raising. -/
def isOkE {e a : Type} : Except e a → Bool
  | .ok _ => true
  | .error _ => false

/-- C1: while a Future is unresolved, `done()` is false and `result()` raises
`FutureResultNotReadyError`; the first `set_result v` stores `v`, makes `done()`
true and `result()` return `v`, invokes exactly the previously registered
callbacks, in registration order, and clears the queue; `add_done_callback` on a
resolved Future invokes the callback immediately; a second `set_result` raises
`FutureAlreadyDoneError`; a callback registered while pending is enqueued, not
invoked. -/
theorem C1_future_single_resolution {α κ : Type} (f : Future α κ) (v : α) (c : κ) :
    ((Future.new : Future α κ).done = false) ∧
    (f.done = false →
      f.result = .error .futureResultNotReady ∧
      (∃ g invoked, f.set_result v = .ok (g, invoked) ∧
        g.done = true ∧ g.result = .ok (some v) ∧
        invoked = f.callbacks ∧ g.callbacks = []) ∧
      f.add_done_callback c = ({ f with callbacks := f.callbacks ++ [c] }, [])) ∧
    (f.done = true →
      f.set_result v = .error .futureAlreadyDone ∧
      f.add_done_callback c = (f, [c])) := by
  refine ⟨by simp [Future.new, Future.done], fun h => ?_, fun h => ⟨?_, ?_⟩⟩
  · have hp : f.state = FutureState.pending := by
      simpa [Future.done] using h
    refine ⟨?_, ⟨⟨.finished, some v, []⟩, f.callbacks, ?_⟩, ?_⟩
    · simp [Future.result, Future.done, hp]
    · simp [Future.set_result, Future.done, Future.result, hp]
    · simp [Future.add_done_callback, Future.done, hp]
  · simp [Future.set_result, h]
  · simp [Future.add_done_callback, h]

/-- Witness for C1 at a concrete Future: the fresh pending Future with one queued
callback, resolved with value 5. -/
theorem C1_future_single_resolution_witness :
    ((Future.new : Future Nat Nat).done = false) ∧
    (Future.new.add_done_callback 7 : Future Nat Nat × List Nat).1.result
      = .error .futureResultNotReady ∧
    (∃ g invoked,
      (Future.new.add_done_callback 7 : Future Nat Nat × List Nat).1.set_result 5
          = .ok (g, invoked) ∧
        g.done = true ∧ g.result = .ok (some 5) ∧
        invoked = (Future.new.add_done_callback 7 : Future Nat Nat × List Nat).1.callbacks ∧
        g.callbacks = []) := by
  have h := C1_future_single_resolution
    (Future.new.add_done_callback 7 : Future Nat Nat × List Nat).1 5 9
  exact ⟨h.1, (h.2.1 (by decide)).1, (h.2.1 (by decide)).2.1⟩

/-- C5 (failing input): the hyphen join is not injective, so two Channels whose
(name, type) pairs differ can still compare equal (and hash equal): the channel
named "a-b" of type "c" and the channel named "a" of type "b-c" share the uid
"a-b-c", so `__eq__` returns True although both name and type differ — against the
source's own docstring that the uid "is guaranteed to be unique". -/
theorem C5_channel_uid_collision :
    Channel.eq ⟨"a-b", "c"⟩ ⟨"a", "b-c"⟩ = true ∧
    Channel.hashVal ⟨"a-b", "c"⟩ = Channel.hashVal ⟨"a", "b-c"⟩ ∧
    (Channel.name ⟨"a-b", "c"⟩ ≠ Channel.name ⟨"a", "b-c"⟩ ∧
     Channel.type ⟨"a-b", "c"⟩ ≠ Channel.type ⟨"a", "b-c"⟩) :=
  ⟨by decide,
   congrArg String.hash (by decide :
     Channel.channel_uid ⟨"a-b", "c"⟩ = Channel.channel_uid ⟨"a", "b-c"⟩),
   by decide, by decide⟩

theorem finalMarker_append (i : Option Nat) (tr1 tr2 : List Ev) :
    finalMarker i (tr1 ++ tr2) = finalMarker (finalMarker i tr1) tr2 :=
  List.foldl_append _ _ _ _

theorem finalMarker_bracket (exh : Nat → Bool) (t : Nat) (i : Option Nat) :
    finalMarker i (bracket exh t) = none := rfl

theorem wellBracketed_nil (exh : Nat → Bool) : WellBracketed exh [] := ⟨[], rfl⟩

theorem wellBracketed_append {exh : Nat → Bool} {tr1 tr2 : List Ev}
    (h1 : WellBracketed exh tr1) (h2 : WellBracketed exh tr2) :
    WellBracketed exh (tr1 ++ tr2) := by
  obtain ⟨ts1, rfl⟩ := h1
  obtain ⟨ts2, rfl⟩ := h2
  exact ⟨ts1 ++ ts2, by simp⟩

theorem wellBracketed_bracket (exh : Nat → Bool) (t : Nat) :
    WellBracketed exh (bracket exh t) := ⟨[t], by simp⟩

theorem finalMarker_of_wellBracketed {exh : Nat → Bool} {tr : List Ev}
    (h : WellBracketed exh tr) (i : Option Nat) :
    finalMarker none tr = none ∧ (tr ≠ [] → finalMarker i tr = none) := by
  obtain ⟨ts, rfl⟩ := h
  induction ts generalizing i with
  | nil => simp [finalMarker]
  | cons t ts ih =>
    constructor
    · rw [List.map_cons, List.flatten_cons, finalMarker_append, finalMarker_bracket]
      exact (ih none).1
    · intro _
      rw [List.map_cons, List.flatten_cons, finalMarker_append, finalMarker_bracket]
      exact (ih none).1

/-- C7: on a native timer firing, if no tick Future is pending (the owner never
called `tick()`, or the installed Future is already resolved) the firing is dropped
silently with no effect on the Timer and no resumption; if the Future installed by
`tick()` is pending, the firing resolves it and synchronously resumes the owning
task (exactly one bracketed resumption of `t.task`). -/
theorem C7_timer_firing (exh : Nat → Bool) (t : Timer) (f : Future Unit Unit) :
    (t.onTick = none → Timer.timer_callback exh t = .ok (t, [])) ∧
    (t.onTick = some f → f.done = true → Timer.timer_callback exh t = .ok (t, [])) ∧
    (t.onTick = some f → f.done = false → f.callbacks = [()] →
      ∃ f1, Timer.timer_callback exh t = .ok ({ t with onTick := some f1 }, bracket exh t.task) ∧
        f1.done = true) := by
  refine ⟨fun h => ?_, fun h hd => ?_, fun h hd hcb => ?_⟩
  · simp [Timer.timer_callback, h]
  · simp [Timer.timer_callback, h, hd]
  · have hp : f.state = FutureState.pending := by
      simpa [Future.done] using hd
    refine ⟨⟨.finished, some (), []⟩, ?_, by simp [Future.done]⟩
    simp [Timer.timer_callback, h, Future.done, hp, Future.set_result, hcb,
      Timer.tickInvokeAll, Timer.resume_on_tick]

/-- Witness for C7: a concrete timer owned by task 3 whose owner has a pending
`tick()` Future installed; the firing resumes task 3. -/
theorem C7_timer_firing_witness :
    (∃ f1, Timer.timer_callback (fun _ => false)
        (Timer.tick ⟨0, 3, none, true⟩) =
        .ok ({ Timer.tick ⟨0, 3, none, true⟩ with onTick := some f1 },
             bracket (fun _ => false) 3) ∧
      f1.done = true) ∧
    Timer.timer_callback (fun _ => false) ⟨0, 3, none, true⟩ = .ok (⟨0, 3, none, true⟩, []) := by
  have h := C7_timer_firing (fun _ => false) (Timer.tick ⟨0, 3, none, true⟩)
    (Future.new.add_done_callback ()).1
  have h2 := C7_timer_firing (fun _ => false) (⟨0, 3, none, true⟩ : Timer)
    (Future.new.add_done_callback ()).1
  exact ⟨h.2.2 rfl (by decide) (by decide), h2.1 rfl⟩

/-- C9: `Timer.cancel` (the Python binding of the engine's `disable`) only disables
the native timer; every Python-visible Timer field — in particular a Future already
installed by a pending `tick()` — is left exactly as it was: not completed, not
cancelled, not removed. -/
theorem C9_cancel_frame (t : Timer) :
    (t.cancel).onTick = t.onTick ∧
    (t.cancel).task = t.task ∧
    (t.cancel).tmid = t.tmid ∧
    (t.cancel).cEnabled = false ∧
    (∀ f, t.onTick = some f → f.done = false →
      (t.cancel).onTick = some f ∧ f.done = false) := by
  refine ⟨rfl, rfl, rfl, rfl, fun f hf hd => ⟨by simp [Timer.cancel, hf], hd⟩⟩

/-- Witness for C9: cancelling a concrete timer with a pending tick Future leaves
that pending Future installed and unresolved. -/
theorem C9_cancel_frame_witness :
    (Timer.cancel (Timer.tick ⟨0, 3, none, true⟩)).onTick
        = (Timer.tick ⟨0, 3, none, true⟩).onTick ∧
    (Timer.cancel (Timer.tick ⟨0, 3, none, true⟩)).onTick
        = some (Future.new.add_done_callback ()).1 ∧
    ((Future.new.add_done_callback ()).1 : Future Unit Unit).done = false := by
  have h := C9_cancel_frame (Timer.tick ⟨0, 3, none, true⟩)
  exact ⟨h.1, (h.2.2.2.2 (Future.new.add_done_callback ()).1 rfl (by decide)).1, by decide⟩

theorem applyResumed_nil (beh : Nat → Bool) (ts : List (Option Nat × Bool)) :
    applyResumed beh [] ts = ts := by
  induction ts with
  | nil => rfl
  | cons p ts ih =>
    obtain ⟨k, b⟩ := p
    cases k <;> simpa [applyResumed] using ih

theorem anyKey_eq_of_keys_eq {l1 l2 : List (Option Nat × Bool)} (k : Option Nat)
    (h : l1.map Prod.fst = l2.map Prod.fst) :
    l1.any (fun p => p.1 == k) = l2.any (fun p => p.1 == k) := by
  induction l1 generalizing l2 with
  | nil => cases l2 with
    | nil => rfl
    | cons q l2 => simp at h
  | cons p l1 ih =>
    cases l2 with
    | nil => simp at h
    | cons q l2 =>
      simp only [List.map_cons, List.cons.injEq] at h
      simp [List.any_cons, h.1, ih h.2]

theorem keys_odSet {ts : List (Option Nat × Bool)} {k : Option Nat} (v : Bool)
    (h : ts.any (fun p => p.1 == k) = true) :
    (odSet ts k v).map Prod.fst = ts.map Prod.fst := by
  rw [odSet, if_pos h, List.map_map]
  apply List.map_congr_left
  intro p _
  by_cases hp : p.1 = k <;> simp [hp]

theorem odSet_odSet {ts : List (Option Nat × Bool)} {k : Option Nat} (a b : Bool)
    (h : ts.any (fun p => p.1 == k) = true) :
    odSet (odSet ts k a) k b = odSet ts k b := by
  have h2 : (odSet ts k a).any (fun p => p.1 == k) = true := by
    rw [anyKey_eq_of_keys_eq k (keys_odSet a h)]; exact h
  rw [odSet, if_pos h2, odSet, if_pos h, odSet, if_pos h, List.map_map]
  apply List.map_congr_left
  intro p _
  by_cases hp : p.1 = k <;> simp [hp]

theorem applyResumed_odSet (beh : Nat → Bool) (R : List Nat) (t : Nat)
    {ts : List (Option Nat × Bool)}
    (h : ts.any (fun p => p.1 == some t) = true) :
    applyResumed beh R (odSet ts (some t) (beh t)) = applyResumed beh (t :: R) ts := by
  rw [odSet, if_pos h, applyResumed, applyResumed, List.map_map]
  apply List.map_congr_left
  intro p _
  obtain ⟨k, b⟩ := p
  match k with
  | none => simp
  | some u =>
    by_cases hu : u = t
    · subst hu; simp
    · simp [hu, Function.comp]

theorem mem_keys_of_mem_wantsNext {items : List (Option Nat × Bool)} {t : Nat}
    (h : t ∈ wantsNext items) : (some t) ∈ items.map Prod.fst := by
  rw [wantsNext, List.mem_filterMap] at h
  obtain ⟨⟨k, b⟩, hmem, hk⟩ := h
  cases b with
  | false => simp at hk
  | true =>
    simp only [if_pos rfl] at hk
    exact List.mem_map.2 ⟨(k, true), hmem, by simpa using hk⟩

theorem any_of_mem_wantsNext {items : List (Option Nat × Bool)} {t : Nat}
    (h : t ∈ wantsNext items) : items.any (fun p => p.1 == some t) = true := by
  have h2 := mem_keys_of_mem_wantsNext h
  rw [List.mem_map] at h2
  obtain ⟨p, hp, hk⟩ := h2
  exact List.any_eq_true.2 ⟨p, hp, by simp [hk]⟩

theorem fresh_future_done {α : Type} :
    ((Future.new.add_done_callback ()).1 : Future α Unit).done = false := rfl

theorem fresh_future_eq {α : Type} :
    ((Future.new.add_done_callback ()).1 : Future α Unit)
      = ⟨.pending, none, [()]⟩ := rfl

theorem next_ok_spec (f : Fetcher) (t : Nat) (m : Future Msg Unit)
    (hm : f.onMessage = some m)
    (hmem : f.tasks.any (fun p => p.1 == some t) = true) :
    Fetcher.next f (some t) = .ok
      ⟨f.fid, f.channel, odSet f.tasks (some t) true,
       some (if m.done then (Future.new.add_done_callback ()).1 else m),
       f.lastMessage⟩ := by
  obtain ⟨fid, ch, ts, om, lm⟩ := f
  simp only at hm hmem
  subst hm
  by_cases hd : m.done <;> simp [Fetcher.next, hd, hmem]

theorem fanout_cons (exh beh : Nat → Bool) (t : Nat) (rest : List (Option Nat × Bool))
    (f : Fetcher) :
    Fetcher.fanout exh beh ((some t, true) :: rest) f =
      (match (if beh t then Fetcher.next { f with tasks := odSet f.tasks (some t) false } (some t)
              else .ok { f with tasks := odSet f.tasks (some t) false }) with
       | .error e => .error e
       | .ok f2 =>
         match Fetcher.fanout exh beh rest f2 with
         | .error e => .error e
         | .ok (f3, evs, del) =>
           .ok (f3, bracket exh t ++ evs, (t, f.lastMessage) :: del)) := rfl

/-- Full characterization of the fan-out loop: resumes exactly the flagged tasks,
in dict order, each delivered the single stored `_last_message`; every resumed flag
ends equal to `beh`; other entries, `_last_message`, and the fetcher identity are
untouched; `_on_message` is reinstalled fresh exactly when it was resolved and some
resumed task re-awaited. -/
theorem fanout_spec (exh beh : Nat → Bool) (items : List (Option Nat × Bool))
    (f : Fetcher) (m : Future Msg Unit)
    (hm : f.onMessage = some m)
    (hmem : ∀ t ∈ wantsNext items, f.tasks.any (fun p => p.1 == some t) = true)
    (hflag : ∀ p ∈ items, p.2 = true → p.1 ≠ none) :
    Fetcher.fanout exh beh items f = .ok
      (⟨f.fid, f.channel, applyResumed beh (wantsNext items) f.tasks,
        some (if m.done && (wantsNext items).any beh
              then (Future.new.add_done_callback ()).1 else m),
        f.lastMessage⟩,
       ((wantsNext items).map (bracket exh)).flatten,
       (wantsNext items).map (fun t => (t, f.lastMessage))) := by
  induction items generalizing f m with
  | nil =>
    obtain ⟨fid, ch, ts, om, lm⟩ := f
    simp only at hm
    subst hm
    simp [Fetcher.fanout, wantsNext, applyResumed_nil]
  | cons p rest ih =>
    obtain ⟨k, b⟩ := p
    cases b with
    | false =>
      have hw : wantsNext ((k, false) :: rest) = wantsNext rest := by simp [wantsNext]
      have h1 : Fetcher.fanout exh beh ((k, false) :: rest) f =
          Fetcher.fanout exh beh rest f := rfl
      rw [h1, hw]
      exact ih f m hm (fun t ht => hmem t (by rw [hw]; exact ht))
        (fun p hp => hflag p (List.mem_cons_of_mem _ hp))
    | true =>
      cases k with
      | none => exact absurd rfl (hflag (none, true) (List.mem_cons_self _ _) rfl)
      | some t =>
        have hw : wantsNext ((some t, true) :: rest) = t :: wantsNext rest := by
          simp [wantsNext]
        have hmemt : f.tasks.any (fun p => p.1 == some t) = true := by
          apply hmem t; rw [hw]; exact List.mem_cons_self _ _
        have hkeys0 : (odSet f.tasks (some t) false).map Prod.fst = f.tasks.map Prod.fst :=
          keys_odSet false hmemt
        cases hb : beh t with
        | true =>
          have hmem1 : (odSet f.tasks (some t) false).any (fun p => p.1 == some t) = true := by
            rw [anyKey_eq_of_keys_eq _ hkeys0]; exact hmemt
          have hnext := next_ok_spec { f with tasks := odSet f.tasks (some t) false } t m hm hmem1
          simp only [odSet_odSet false true hmemt] at hnext
          have ihr := ih ⟨f.fid, f.channel, odSet f.tasks (some t) true,
              some (if m.done then (Future.new.add_done_callback ()).1 else m),
              f.lastMessage⟩
            (if m.done then (Future.new.add_done_callback ()).1 else m) rfl
            (fun u hu => by
              rw [anyKey_eq_of_keys_eq _ (keys_odSet true hmemt)]
              exact hmem u (by rw [hw]; exact List.mem_cons_of_mem _ hu))
            (fun p hp => hflag p (List.mem_cons_of_mem _ hp))
          have htasks : applyResumed beh (wantsNext rest) (odSet f.tasks (some t) true)
              = applyResumed beh (t :: wantsNext rest) f.tasks := by
            rw [← hb]; exact applyResumed_odSet beh _ t hmemt
          rw [fanout_cons]
          simp only [hb, if_true, hnext, ihr]
          rw [hw]
          cases hd : m.done with
          | true => simp [hd, hb, fresh_future_done, htasks]
          | false => simp [hd, hb, htasks]
        | false =>
          have ihr := ih { f with tasks := odSet f.tasks (some t) false } m hm
            (fun u hu => by
              rw [show ({ f with tasks := odSet f.tasks (some t) false } : Fetcher).tasks
                    = odSet f.tasks (some t) false from rfl,
                  anyKey_eq_of_keys_eq _ hkeys0]
              exact hmem u (by rw [hw]; exact List.mem_cons_of_mem _ hu))
            (fun p hp => hflag p (List.mem_cons_of_mem _ hp))
          have htasks : applyResumed beh (wantsNext rest) (odSet f.tasks (some t) false)
              = applyResumed beh (t :: wantsNext rest) f.tasks := by
            rw [← hb]; exact applyResumed_odSet beh _ t hmemt
          rw [fanout_cons]
          simp only [hb, Bool.false_eq_true, if_false, ihr]
          rw [hw]
          simp [htasks, hb]

theorem mem_wantsNext {items : List (Option Nat × Bool)} {t : Nat} :
    t ∈ wantsNext items ↔ (some t, true) ∈ items := by
  rw [wantsNext, List.mem_filterMap]
  constructor
  · rintro ⟨⟨k, b⟩, hmem, hk⟩
    cases b with
    | false => simp at hk
    | true =>
      simp only [if_pos rfl] at hk
      subst hk
      exact hmem
  · intro h
    exact ⟨(some t, true), h, by simp⟩

theorem eq_snd_of_nodup_keys {l : List (Option Nat × Bool)} {k : Option Nat} {a b : Bool}
    (h : (l.map Prod.fst).Nodup) (ha : (k, a) ∈ l) (hb : (k, b) ∈ l) : a = b := by
  induction l with
  | nil => simp at ha
  | cons p l ih =>
    simp only [List.map_cons, List.nodup_cons] at h
    rcases List.mem_cons.1 ha with ha1 | ha2 <;> rcases List.mem_cons.1 hb with hb1 | hb2
    · rw [← ha1] at hb1
      injection hb1 with h1 h2
      exact h2.symm
    · exfalso
      apply h.1
      rw [← ha1]
      simpa using List.mem_map_of_mem Prod.fst hb2
    · exfalso
      apply h.1
      rw [← hb1]
      simpa using List.mem_map_of_mem Prod.fst ha2
    · exact ih h.2 ha2 hb2

theorem wantsNext_nodup {ts : List (Option Nat × Bool)}
    (h : (ts.map Prod.fst).Nodup) : (wantsNext ts).Nodup := by
  induction ts with
  | nil => exact List.nodup_nil
  | cons p ts ih =>
    obtain ⟨k, b⟩ := p
    simp only [List.map_cons, List.nodup_cons] at h
    have ihn := ih h.2
    cases k with
    | none => cases b <;> simpa [wantsNext] using ihn
    | some t =>
      cases b with
      | false => simpa [wantsNext] using ihn
      | true =>
        have hnot : t ∉ wantsNext ts := fun hmem =>
          h.1 (mem_keys_of_mem_wantsNext hmem)
        have hcons : wantsNext ((some t, true) :: ts) = t :: wantsNext ts := by
          simp [wantsNext]
        rw [hcons]
        exact List.nodup_cons.2 ⟨hnot, ihn⟩

theorem wantsNext_applyResumed (beh : Nat → Bool) (R : List Nat)
    (ts : List (Option Nat × Bool))
    (h1 : ∀ p ∈ ts, p.2 = true → ∃ t, p.1 = some t ∧ t ∈ R)
    (h2 : ∀ t b, (some t, b) ∈ ts → b = false → t ∉ R) :
    wantsNext (applyResumed beh R ts) = (wantsNext ts).filter beh := by
  induction ts with
  | nil => rfl
  | cons p ts ih =>
    obtain ⟨k, b⟩ := p
    have ih2 := ih (fun q hq hq2 => h1 q (List.mem_cons_of_mem _ hq) hq2)
      (fun t b2 hm hb => h2 t b2 (List.mem_cons_of_mem _ hm) hb)
    cases k with
    | none =>
      cases b with
      | false => simpa [applyResumed, wantsNext] using ih2
      | true =>
        obtain ⟨t, ht, _⟩ := h1 (none, true) (List.mem_cons_self _ _) rfl
        simp at ht
    | some t =>
      cases b with
      | true =>
        obtain ⟨u, hu, humem⟩ := h1 (some t, true) (List.mem_cons_self _ _) rfl
        simp only [Option.some.injEq] at hu
        subst hu
        cases hbt : beh t <;>
          simpa [applyResumed, wantsNext, humem, hbt] using ih2
      | false =>
        have hnot := h2 t false (List.mem_cons_self _ _) rfl
        simpa [applyResumed, wantsNext, hnot] using ih2

/-- Characterization of `_watcher_callback` on a fetcher whose shared Future is
pending, as installed by `next()`: the buffer is stored, the flagged tasks are
resumed in dict order with that buffer delivered to each, and the shared Future is
reinstalled exactly when some resumed task re-awaited. -/
theorem watcher_spec (exh beh : Nat → Bool) (f : Fetcher) (m : Future Msg Unit)
    (buf : Msg)
    (hm : f.onMessage = some m) (hpend : m.done = false) (hcb : m.callbacks = [()])
    (hflag : ∀ p ∈ f.tasks, p.2 = true → p.1 ≠ none) :
    Fetcher.watcher_callback exh beh f buf = .ok
      (⟨f.fid, f.channel, applyResumed beh (wantsNext f.tasks) f.tasks,
        some (if (wantsNext f.tasks).any beh
              then (Future.new.add_done_callback ()).1
              else ⟨.finished, some buf, []⟩),
        some buf⟩,
       ((wantsNext f.tasks).map (bracket exh)).flatten,
       (wantsNext f.tasks).map (fun t => (t, some buf))) := by
  have hset : m.set_result buf = .ok (⟨.finished, some buf, []⟩, [()]) := by
    simp [Future.set_result, hpend, hcb]
  have hfan := fanout_spec exh beh f.tasks
      { f with onMessage := some ⟨.finished, some buf, []⟩, lastMessage := some buf }
      ⟨.finished, some buf, []⟩ rfl
      (fun t ht => any_of_mem_wantsNext ht) hflag
  have hps : m.state = FutureState.pending := by simpa [Future.done] using hpend
  have hfnp : (FutureState.finished != FutureState.pending) = true := rfl
  simp only [Future.done] at hfan
  simp only [Fetcher.watcher_callback, hm, Future.done, hps, bne_self_eq_false,
    Bool.false_eq_true, if_false, hset, Fetcher.invokeAll, Fetcher.resume_on_message,
    hfnp, if_true]
  simp [hfan, hfnp]

/-- C2 (amended: resumption order is the Fetcher's task-REGISTRATION order, not the
order the tasks first called `next()`): with the shared Future pending as installed
by `next()`, one arrival resumes exactly the currently-flagged tasks, each exactly
once, in registration (dict) order, each delivered the identical stored buffer;
each flag is cleared as its task is resumed and re-set only if the task's body
called `next()` again, so precisely the re-awaiting tasks (`beh`) stay flagged for
the following arrival. -/
theorem C2_fetcher_fanout_registration_order (exh beh : Nat → Bool) (f : Fetcher)
    (m : Future Msg Unit) (buf : Msg)
    (hm : f.onMessage = some m) (hpend : m.done = false) (hcb : m.callbacks = [()])
    (hflag : ∀ p ∈ f.tasks, p.2 = true → p.1 ≠ none)
    (hnodup : (f.tasks.map Prod.fst).Nodup) :
    ∃ f', Fetcher.watcher_callback exh beh f buf = .ok
        (f',
         ((wantsNext f.tasks).map (bracket exh)).flatten,
         (wantsNext f.tasks).map (fun t => (t, some buf))) ∧
      (wantsNext f.tasks).Nodup ∧
      f'.tasks = applyResumed beh (wantsNext f.tasks) f.tasks ∧
      wantsNext f'.tasks = (wantsNext f.tasks).filter beh ∧
      f'.lastMessage = some buf := by
  refine ⟨_, watcher_spec exh beh f m buf hm hpend hcb hflag,
    wantsNext_nodup hnodup, rfl, ?_, rfl⟩
  refine wantsNext_applyResumed beh _ f.tasks ?_ ?_
  · intro p hp hp2
    obtain ⟨k, b⟩ := p
    cases k with
    | none => exact absurd rfl (hflag (none, b) hp hp2)
    | some t =>
      refine ⟨t, rfl, mem_wantsNext.2 ?_⟩
      rwa [show b = true from hp2] at hp
  · intro t b hmem hb hw
    have h2 := eq_snd_of_nodup_keys hnodup hmem (mem_wantsNext.1 hw)
    rw [hb] at h2
    exact Bool.false_ne_true h2

/-- Witness for C2 at a concrete fetcher: tasks 1 (flagged, awaiting) and 2 (not
awaiting) registered in that order, shared Future pending, one arrival of "m". -/
theorem C2_fetcher_fanout_registration_order_witness :
    ∃ f', Fetcher.watcher_callback (fun _ => false) (fun _ => false)
        ⟨0, ⟨"n", "T"⟩, [(some 1, true), (some 2, false)],
         some ⟨.pending, none, [()]⟩, none⟩ "m"
        = .ok (f',
          ((wantsNext [(some 1, true), (some 2, false)]).map (bracket (fun _ => false))).flatten,
          (wantsNext [(some 1, true), (some 2, false)]).map (fun t => (t, some "m"))) ∧
      (wantsNext [(some 1, true), (some 2, false)]).Nodup ∧
      f'.tasks = applyResumed (fun _ => false) (wantsNext [(some 1, true), (some 2, false)])
        [(some 1, true), (some 2, false)] ∧
      wantsNext f'.tasks = (wantsNext [(some 1, true), (some 2, false)]).filter (fun _ => false) ∧
      f'.lastMessage = some "m" :=
  C2_fetcher_fanout_registration_order (fun _ => false) (fun _ => false)
    ⟨0, ⟨"n", "T"⟩, [(some 1, true), (some 2, false)], some ⟨.pending, none, [()]⟩, none⟩
    ⟨.pending, none, [()]⟩ "m" rfl (by decide) rfl (by decide) (by decide)

/-- C2 counterexample to the order as claimed: in `c2setup` the next()-call order
is [2, 1], yet the arrival delivers to [1, 2] — the registration order — so the
claim "in the order those Tasks first called next()" fails on this input. -/
theorem C2_order_counterexample :
    c2setup = .ok ⟨0, ⟨"n", "T"⟩, [(some 1, true), (some 2, true)],
        some ⟨.pending, none, [()]⟩, none⟩ ∧
    (Fetcher.watcher_callback (fun _ => false) (fun _ => false)
        ⟨0, ⟨"n", "T"⟩, [(some 1, true), (some 2, true)],
         some ⟨.pending, none, [()]⟩, none⟩ "m").map
      (fun r => r.2.2.map Prod.fst) = .ok [1, 2] ∧
    [1, 2] ≠ [2, 1] :=
  ⟨rfl, rfl, by decide⟩

/-- C3 (amended): once the engine is running, `add_timer` (Timer creation),
`make_fetcher` (Fetcher creation or reuse — reuse still registers the current
task and is refused), `make_sender` for a channel with no cached Sender, and
`Fetcher.register_task` all raise RuntimeError, and each identical call succeeds
before run start (a current task given for `add_timer`); Future creation,
however, checks nothing and succeeds in either state, and `make_sender` for an
already-cached channel returns the cached Sender even while running. -/
theorem C3_creation_lifecycle (rt : RuntimeState) (n ty : String) (f : Fetcher)
    (task : Option Nat) (α κ : Type) :
    (rt.running = true →
      EventLoopRuntime.add_timer rt = .error .runtimeError ∧
      EventLoopRuntime.make_fetcher rt n ty = .error .runtimeError ∧
      (rt.senders.find? (fun p => Channel.eq p.1 ⟨n, ty⟩) = none →
        EventLoopRuntime.make_sender rt n ty = .error .runtimeError) ∧
      (∀ c s, rt.senders.find? (fun p => Channel.eq p.1 ⟨n, ty⟩) = some (c, s) →
        EventLoopRuntime.make_sender rt n ty = .ok (rt, s)) ∧
      f.register_task rt.running task = .error .runtimeError ∧
      futureCreate α κ rt = .ok Future.new) ∧
    (rt.running = false →
      (rt.currentTask.isSome = true → isOkE (EventLoopRuntime.add_timer rt) = true) ∧
      isOkE (EventLoopRuntime.make_fetcher rt n ty) = true ∧
      isOkE (EventLoopRuntime.make_sender rt n ty) = true ∧
      isOkE (f.register_task rt.running task) = true ∧
      futureCreate α κ rt = .ok Future.new) := by
  constructor
  · intro hrun
    refine ⟨?_, ?_, ?_, ?_, ?_, rfl⟩
    · simp [EventLoopRuntime.add_timer, Timer.init, hrun]
    · cases hfind : rt.fetchers.find? (fun p => Channel.eq p.1 ⟨n, ty⟩) with
      | none => simp [EventLoopRuntime.make_fetcher, hfind, Fetcher.init, hrun]
      | some p =>
        obtain ⟨c, f0⟩ := p
        simp [EventLoopRuntime.make_fetcher, hfind, Fetcher.register_task, hrun]
    · intro hfinds
      simp [EventLoopRuntime.make_sender, hfinds, Sender.init, hrun]
    · intro c s hfinds
      simp [EventLoopRuntime.make_sender, hfinds]
    · simp [Fetcher.register_task, hrun]
  · intro hrun
    refine ⟨?_, ?_, ?_, ?_, rfl⟩
    · intro hcur
      match hc : rt.currentTask with
      | none => rw [hc] at hcur; simp at hcur
      | some t => simp [isOkE, EventLoopRuntime.add_timer, Timer.init, hrun, hc]
    · cases hfind : rt.fetchers.find? (fun p => Channel.eq p.1 ⟨n, ty⟩) with
      | none =>
        simp [isOkE, EventLoopRuntime.make_fetcher, hfind, Fetcher.init,
          Fetcher.register_task, hrun]
      | some p =>
        obtain ⟨c, f0⟩ := p
        simp [isOkE, EventLoopRuntime.make_fetcher, hfind, Fetcher.register_task, hrun]
    · cases hfinds : rt.senders.find? (fun p => Channel.eq p.1 ⟨n, ty⟩) with
      | none => simp [isOkE, EventLoopRuntime.make_sender, hfinds, Sender.init, hrun]
      | some p =>
        obtain ⟨c, s⟩ := p
        simp [isOkE, EventLoopRuntime.make_sender, hfinds]
    · simp [isOkE, Fetcher.register_task, hrun]

/-- Witness for C3 at concrete states: a running runtime (where add_timer fails
and Future creation succeeds) and a fresh pre-run runtime with a current task
(where add_timer succeeds). -/
theorem C3_creation_lifecycle_witness :
    (EventLoopRuntime.add_timer ⟨true, [], [], [], [], some 0, none, 0⟩
        = .error .runtimeError ∧
      futureCreate Nat Unit ⟨true, [], [], [], [], some 0, none, 0⟩ = .ok Future.new) ∧
    isOkE (EventLoopRuntime.add_timer ⟨false, [], [], [], [], some 0, none, 0⟩) = true := by
  have h1 := (C3_creation_lifecycle ⟨true, [], [], [], [], some 0, none, 0⟩ "n" "T"
    ⟨0, ⟨"n", "T"⟩, [], none, none⟩ none Nat Unit).1 rfl
  have h2 := (C3_creation_lifecycle ⟨false, [], [], [], [], some 0, none, 0⟩ "n" "T"
    ⟨0, ⟨"n", "T"⟩, [], none, none⟩ none Nat Unit).2 rfl
  exact ⟨⟨h1.1, h1.2.2.2.2.2⟩, h2.1 rfl⟩

/-- C3 counterexample: with the engine running, creating a Future still succeeds:
`Future.__init__` has no `is_running` check (and cannot have one — `tick()` and
`next()` construct Futures during the run phase), so "creating a Future after the
engine has entered its running state fails" is false. -/
theorem C3_future_creation_counterexample :
    futureCreate Nat Unit ⟨true, [], [], [], [], some 0, none, 0⟩ = .ok Future.new ∧
    RuntimeState.running ⟨true, [], [], [], [], some 0, none, 0⟩ = true :=
  ⟨rfl, rfl⟩

theorem Channel.eq_refl (c : Channel) : Channel.eq c c = true := by
  simp [Channel.eq]

theorem find_updateFetcher {l : List (Channel × Fetcher)} {ch c : Channel}
    {f0 : Fetcher} (f1 : Fetcher)
    (h : l.find? (fun p => Channel.eq p.1 ch) = some (c, f0)) :
    (updateFetcher l ch f1).find? (fun p => Channel.eq p.1 ch) = some (c, f1) := by
  induction l with
  | nil => simp at h
  | cons p l ih =>
    by_cases hp : Channel.eq p.1 ch = true
    · rw [List.find?_cons, hp] at h
      injection h with h2
      subst h2
      simp [updateFetcher, List.find?_cons, hp]
    · rw [List.find?_cons] at h
      rw [show Channel.eq p.1 ch = false from by simpa using hp] at h
      simp only [updateFetcher, List.map_cons, if_neg hp]
      rw [List.find?_cons, show Channel.eq p.1 ch = false from by simpa using hp]
      exact ih h

/-- C4 (amended): within one Runtime, `make_fetcher` for the same (name, type) is
deduplicated — a second call returns the same Fetcher object (same identity) —
and so is `make_sender`: a second call for an already-seen channel returns the
cached Sender, not a new one. Timers are not deduplicated: every `add_timer` call
creates a distinct new Timer. -/
theorem C4_dedup (rt : RuntimeState) (n ty : String) (hrun : rt.running = false) :
    (∀ rt1 f1, EventLoopRuntime.make_fetcher rt n ty = .ok (rt1, f1) →
      (EventLoopRuntime.make_fetcher rt1 n ty).map (fun r => r.2.fid) = .ok f1.fid) ∧
    (∀ rt1 s1, EventLoopRuntime.make_sender rt n ty = .ok (rt1, s1) →
      EventLoopRuntime.make_sender rt1 n ty = .ok (rt1, s1)) ∧
    (∀ rt1 tm1 rt2 tm2, EventLoopRuntime.add_timer rt = .ok (rt1, tm1) →
      EventLoopRuntime.add_timer rt1 = .ok (rt2, tm2) → tm1.tmid ≠ tm2.tmid) := by
  refine ⟨?_, ?_, ?_⟩
  · intro rt1 f1 h
    cases hfind : rt.fetchers.find? (fun p => Channel.eq p.1 ⟨n, ty⟩) with
    | some p =>
      obtain ⟨c, f0⟩ := p
      simp only [EventLoopRuntime.make_fetcher, hfind, Fetcher.register_task, hrun,
        Bool.false_eq_true, if_false, Except.ok.injEq, Prod.mk.injEq] at h
      obtain ⟨h1, h2⟩ := h
      subst h1
      subst h2
      have hfind2 := find_updateFetcher
        { f0 with tasks := odSet f0.tasks rt.currentTask false } hfind
      simp [EventLoopRuntime.make_fetcher, hfind2, Fetcher.register_task, hrun,
        Except.map]
    | none =>
      simp only [EventLoopRuntime.make_fetcher, hfind, Fetcher.init, hrun,
        Bool.false_eq_true, if_false, Fetcher.register_task, Except.ok.injEq,
        Prod.mk.injEq] at h
      obtain ⟨h1, h2⟩ := h
      subst h1
      subst h2
      simp [EventLoopRuntime.make_fetcher, List.find?_append, hfind, Channel.eq_refl,
        Fetcher.register_task, hrun, Except.map]
  · intro rt1 s1 h
    cases hfind : rt.senders.find? (fun p => Channel.eq p.1 ⟨n, ty⟩) with
    | some p =>
      obtain ⟨c, s⟩ := p
      simp only [EventLoopRuntime.make_sender, hfind, Except.ok.injEq,
        Prod.mk.injEq] at h
      obtain ⟨h1, h2⟩ := h
      subst h1
      subst h2
      simp [EventLoopRuntime.make_sender, hfind]
    | none =>
      simp only [EventLoopRuntime.make_sender, hfind, Sender.init, hrun,
        Bool.false_eq_true, if_false, Except.ok.injEq, Prod.mk.injEq] at h
      obtain ⟨h1, h2⟩ := h
      subst h1
      subst h2
      simp [EventLoopRuntime.make_sender, List.find?_append, hfind, Channel.eq_refl]
  · intro rt1 tm1 rt2 tm2 h1 h2
    cases hc : rt.currentTask with
    | none => simp [EventLoopRuntime.add_timer, Timer.init, hrun, hc] at h1
    | some t =>
      simp only [EventLoopRuntime.add_timer, Timer.init, hrun, Bool.false_eq_true,
        if_false, hc, Except.ok.injEq, Prod.mk.injEq] at h1
      obtain ⟨h11, h12⟩ := h1
      subst h11
      subst h12
      simp only [EventLoopRuntime.add_timer, Timer.init, hrun, Bool.false_eq_true,
        if_false, hc, Except.ok.injEq, Prod.mk.injEq] at h2
      obtain ⟨h21, h22⟩ := h2
      subst h21
      subst h22
      simp

/-- Witness for C4 at a concrete runtime (pre-run, current task 0): the second
make_fetcher returns the fetcher with the same identity, the second make_sender
returns the cached sender, two add_timer calls return distinct timers. -/
theorem C4_dedup_witness :
    (EventLoopRuntime.make_fetcher
        ⟨false, [], [(⟨"n", "T"⟩, ⟨0, ⟨"n", "T"⟩, [(some 0, false)], none, none⟩)],
         [], [], some 0, none, 1⟩ "n" "T").map (fun r => r.2.fid) = .ok 0 ∧
    EventLoopRuntime.make_sender
        ⟨false, [], [], [(⟨"n", "T"⟩, 0)], [], some 0, none, 1⟩ "n" "T"
      = .ok (⟨false, [], [], [(⟨"n", "T"⟩, 0)], [], some 0, none, 1⟩, 0) ∧
    (⟨0, 0, none, false⟩ : Timer).tmid ≠ (⟨1, 0, none, false⟩ : Timer).tmid := by
  have h := C4_dedup ⟨false, [], [], [], [], some 0, none, 0⟩ "n" "T" rfl
  exact ⟨h.1 _ _ rfl, h.2.1 _ _ rfl, h.2.2 _ _ _ _ rfl rfl⟩

/-- C4 counterexample: Senders ARE deduplicated, against the claim that "every
call to make_sender for an already-seen channel creates a distinct new object":
on a runtime that already cached sender 0 for channel ("n", "T"), `make_sender`
returns that same cached Sender (identity 0) again, and the runtime state —
including the identity allocator — is unchanged. -/
theorem C4_sender_dedup_counterexample :
    EventLoopRuntime.make_sender ⟨false, [], [], [], [], some 0, none, 0⟩ "n" "T"
      = .ok (⟨false, [], [], [(⟨"n", "T"⟩, 0)], [], some 0, none, 1⟩, 0) ∧
    EventLoopRuntime.make_sender
        ⟨false, [], [], [(⟨"n", "T"⟩, 0)], [], some 0, none, 1⟩ "n" "T"
      = .ok (⟨false, [], [], [(⟨"n", "T"⟩, 0)], [], some 0, none, 1⟩, 0) :=
  ⟨rfl, rfl⟩

theorem resume_on_run_ok (exh : Nat → Bool) (rt : RuntimeState) (m : Future Unit Unit)
    (hm : rt.onRun = some m) (hd : m.done = true) :
    EventLoopRuntime.resume_on_run exh rt = .ok
      (⟨rt.running, rt.timers, rt.fetchers, rt.senders, rt.tasks,
        finalMarker rt.currentTask
          (((rt.tasks.filter (fun p => p.2)).map (fun p => bracket exh p.1)).flatten),
        rt.onRun, rt.nextId⟩,
       ((rt.tasks.filter (fun p => p.2)).map (fun p => bracket exh p.1)).flatten) := by
  simp [EventLoopRuntime.resume_on_run, hm, hd]

/-- The run-entry event on a runtime whose `_on_run` Future is pending with its
single `__resume_on_run` callback: the engine flips to running, the Future
resolves, and the flagged tasks are resumed in spawn order. -/
theorem run_entry_spec (exh : Nat → Bool) (rt : RuntimeState) (m : Future Unit Unit)
    (hm : rt.onRun = some m) (hpend : m.done = false) (hcb : m.callbacks = [()]) :
    EventLoopRuntime.run_entry exh rt = .ok
      (⟨true, rt.timers, rt.fetchers, rt.senders, rt.tasks,
        finalMarker rt.currentTask
          (((rt.tasks.filter (fun p => p.2)).map (fun p => bracket exh p.1)).flatten),
        some ⟨.finished, some (), []⟩, rt.nextId⟩,
       ((rt.tasks.filter (fun p => p.2)).map (fun p => bracket exh p.1)).flatten) := by
  have hset : m.set_result () = .ok (⟨.finished, some (), []⟩, [()]) := by
    simp [Future.set_result, hpend, hcb]
  have hstep := resume_on_run_ok exh
    { rt with running := true, onRun := some ⟨.finished, some (), []⟩ }
    ⟨.finished, some (), []⟩ rfl rfl
  simp only [EventLoopRuntime.run_entry, hm, hset, EventLoopRuntime.runInvokeAll, hstep]
  simp

/-- C6: `on_run()` raises RuntimeError when called before `init()` (no `_on_run`
Future yet) and when called while the engine is running; at run entry, every task
that awaited `on_run()` (its `_resume_on_run` flag set) is resumed exactly once,
in spawn order; the resulting state is running, so any subsequent `on_run()` call
— in particular a second call by a resumed awaiter — raises RuntimeError. -/
theorem C6_on_run_lifecycle (exh : Nat → Bool) (rt : RuntimeState)
    (m : Future Unit Unit) (hnodup : (rt.tasks.map Prod.fst).Nodup) :
    (rt.onRun = none → EventLoopRuntime.on_run rt = .error .runtimeError) ∧
    (rt.running = true → EventLoopRuntime.on_run rt = .error .runtimeError) ∧
    (rt.onRun = some m → m.done = false → m.callbacks = [()] → rt.currentTask = none →
      ∃ rt1, EventLoopRuntime.run_entry exh rt = .ok
          (rt1, ((rt.tasks.filter (fun p => p.2)).map (fun p => bracket exh p.1)).flatten) ∧
        ((rt.tasks.filter (fun p => p.2)).map Prod.fst).Nodup ∧
        rt1.running = true ∧ rt1.tasks = rt.tasks ∧ rt1.currentTask = none ∧
        EventLoopRuntime.on_run rt1 = .error .runtimeError) := by
  refine ⟨fun h => by simp [EventLoopRuntime.on_run, h], fun h => ?_, ?_⟩
  · cases ho : rt.onRun with
    | none => simp [EventLoopRuntime.on_run, ho]
    | some m2 => simp [EventLoopRuntime.on_run, ho, h]
  · intro hm hpend hcb hcur
    refine ⟨_, run_entry_spec exh rt m hm hpend hcb, ?_, rfl, rfl, ?_, ?_⟩
    · exact hnodup.sublist ((rt.tasks.filter_sublist).map Prod.fst)
    · have hwb : WellBracketed exh
          (((rt.tasks.filter (fun p => p.2)).map (fun p => bracket exh p.1)).flatten) := by
        refine ⟨(rt.tasks.filter (fun p => p.2)).map Prod.fst, ?_⟩
        rw [List.map_map]
        rfl
      simp only [hcur]
      exact (finalMarker_of_wellBracketed hwb none).1
    · simp [EventLoopRuntime.on_run]

/-- Witness for C6: a concrete pre-run runtime with three spawned tasks of which
tasks 0 and 2 awaited `on_run()`; run entry resumes exactly 0 then 2, and a
subsequent `on_run()` raises. -/
theorem C6_on_run_lifecycle_witness :
    ∃ rt1, EventLoopRuntime.run_entry (fun _ => false)
        ⟨false, [], [], [], [(0, true), (1, false), (2, true)], none,
         some ⟨.pending, none, [()]⟩, 3⟩ = .ok
        (rt1, (([(0, true), (1, false), (2, true)].filter (fun p => p.2)).map
            (fun p => bracket (fun _ => false) p.1)).flatten) ∧
      (([(0, true), (1, false), (2, true)].filter (fun p => p.2)).map Prod.fst).Nodup ∧
      rt1.running = true ∧ rt1.tasks = [(0, true), (1, false), (2, true)] ∧
      rt1.currentTask = none ∧
      EventLoopRuntime.on_run rt1 = .error .runtimeError :=
  (C6_on_run_lifecycle (fun _ => false)
      ⟨false, [], [], [], [(0, true), (1, false), (2, true)], none,
       some ⟨.pending, none, [()]⟩, 3⟩
      ⟨.pending, none, [()]⟩ (by decide)).2.2 rfl (by decide) rfl rfl

theorem fanout_wb (exh beh : Nat → Bool) (items : List (Option Nat × Bool))
    (f f1 : Fetcher) (evs : List Ev) (del : List (Nat × Option Msg))
    (h : Fetcher.fanout exh beh items f = .ok (f1, evs, del)) :
    WellBracketed exh evs := by
  induction items generalizing f f1 evs del with
  | nil =>
    simp [Fetcher.fanout] at h
    obtain ⟨h1, h2, h3⟩ := h
    subst h2
    exact wellBracketed_nil exh
  | cons p rest ih =>
    obtain ⟨k, b⟩ := p
    cases b with
    | false => exact ih f f1 evs del h
    | true =>
      cases k with
      | none => simp [Fetcher.fanout] at h
      | some t =>
        rw [fanout_cons] at h
        cases hnext : (if beh t
            then Fetcher.next { f with tasks := odSet f.tasks (some t) false } (some t)
            else .ok { f with tasks := odSet f.tasks (some t) false }) with
        | error e => simp [hnext] at h
        | ok f2 =>
          simp only [hnext] at h
          cases hrec : Fetcher.fanout exh beh rest f2 with
          | error e => simp [hrec] at h
          | ok r =>
            obtain ⟨f3, evs3, del3⟩ := r
            simp only [hrec, Except.ok.injEq, Prod.mk.injEq] at h
            obtain ⟨h1, h2, h3⟩ := h
            subst h2
            exact wellBracketed_append (wellBracketed_bracket exh t) (ih f2 f3 evs3 del3 hrec)

theorem resume_msg_wb (exh beh : Nat → Bool) (f f1 : Fetcher) (evs : List Ev)
    (del : List (Nat × Option Msg))
    (h : Fetcher.resume_on_message exh beh f = .ok (f1, evs, del)) :
    WellBracketed exh evs := by
  cases hm : f.onMessage with
  | none => simp [Fetcher.resume_on_message, hm] at h
  | some m =>
    cases hd : m.done with
    | false => simp [Fetcher.resume_on_message, hm, hd] at h
    | true =>
      simp only [Fetcher.resume_on_message, hm, hd, if_true] at h
      exact fanout_wb _ _ _ _ _ _ _ h

theorem f_invokeAll_wb (exh beh : Nat → Bool) (inv : List Unit) (f f1 : Fetcher)
    (evs : List Ev) (del : List (Nat × Option Msg))
    (h : Fetcher.invokeAll exh beh inv f = .ok (f1, evs, del)) :
    WellBracketed exh evs := by
  induction inv generalizing f f1 evs del with
  | nil =>
    simp [Fetcher.invokeAll] at h
    obtain ⟨h1, h2, h3⟩ := h
    subst h2
    exact wellBracketed_nil exh
  | cons u rest ih =>
    simp only [Fetcher.invokeAll] at h
    cases hr : Fetcher.resume_on_message exh beh f with
    | error e => simp [hr] at h
    | ok r =>
      obtain ⟨fa, evsa, dela⟩ := r
      simp only [hr] at h
      cases hrec : Fetcher.invokeAll exh beh rest fa with
      | error e => simp [hrec] at h
      | ok r2 =>
        obtain ⟨fb, evsb, delb⟩ := r2
        simp only [hrec, Except.ok.injEq, Prod.mk.injEq] at h
        obtain ⟨h1, h2, h3⟩ := h
        subst h2
        exact wellBracketed_append (resume_msg_wb _ _ _ _ _ _ hr)
          (ih fa fb evsb delb hrec)

theorem watcher_wb (exh beh : Nat → Bool) (f f1 : Fetcher) (buf : Msg)
    (evs : List Ev) (del : List (Nat × Option Msg))
    (h : Fetcher.watcher_callback exh beh f buf = .ok (f1, evs, del)) :
    WellBracketed exh evs := by
  cases hm : f.onMessage with
  | none =>
    simp [Fetcher.watcher_callback, hm] at h
    obtain ⟨h1, h2, h3⟩ := h
    subst h2
    exact wellBracketed_nil exh
  | some m =>
    cases hd : m.done with
    | true =>
      simp [Fetcher.watcher_callback, hm, hd] at h
      obtain ⟨h1, h2, h3⟩ := h
      subst h2
      exact wellBracketed_nil exh
    | false =>
      simp only [Fetcher.watcher_callback, hm, hd, Bool.false_eq_true, if_false] at h
      cases hs : m.set_result buf with
      | error e => simp [hs] at h
      | ok r =>
        obtain ⟨m1, invoked⟩ := r
        simp only [hs] at h
        exact f_invokeAll_wb _ _ _ _ _ _ _ h

theorem tick_resume_wb (exh : Nat → Bool) (tm : Timer) (evs : List Ev)
    (h : Timer.resume_on_tick exh tm = .ok evs) : WellBracketed exh evs := by
  cases hmt : tm.onTick with
  | none => simp [Timer.resume_on_tick, hmt] at h
  | some fu =>
    cases hdu : fu.done with
    | false => simp [Timer.resume_on_tick, hmt, hdu] at h
    | true =>
      simp only [Timer.resume_on_tick, hmt, hdu, if_true, Except.ok.injEq] at h
      subst h
      exact wellBracketed_bracket exh tm.task

theorem tickInvokeAll_wb (exh : Nat → Bool) (inv : List Unit) (tm : Timer)
    (evs : List Ev) (h : Timer.tickInvokeAll exh inv tm = .ok evs) :
    WellBracketed exh evs := by
  induction inv generalizing evs with
  | nil =>
    simp [Timer.tickInvokeAll] at h
    subst h
    exact wellBracketed_nil exh
  | cons u rest ih =>
    simp only [Timer.tickInvokeAll] at h
    cases hr : Timer.resume_on_tick exh tm with
    | error e => simp [hr] at h
    | ok evsa =>
      simp only [hr] at h
      cases hrec : Timer.tickInvokeAll exh rest tm with
      | error e => simp [hrec] at h
      | ok evsb =>
        simp only [hrec, Except.ok.injEq] at h
        subst h
        exact wellBracketed_append (tick_resume_wb exh tm evsa hr) (ih evsb hrec)

theorem timer_cb_wb (exh : Nat → Bool) (tm tm1 : Timer) (evs : List Ev)
    (h : Timer.timer_callback exh tm = .ok (tm1, evs)) : WellBracketed exh evs := by
  cases hmt : tm.onTick with
  | none =>
    simp [Timer.timer_callback, hmt] at h
    obtain ⟨h1, h2⟩ := h
    subst h2
    exact wellBracketed_nil exh
  | some fu =>
    cases hdu : fu.done with
    | true =>
      simp [Timer.timer_callback, hmt, hdu] at h
      obtain ⟨h1, h2⟩ := h
      subst h2
      exact wellBracketed_nil exh
    | false =>
      simp only [Timer.timer_callback, hmt, hdu, Bool.false_eq_true, if_false] at h
      cases hs : fu.set_result () with
      | error e => simp [hs] at h
      | ok r =>
        obtain ⟨fb, invoked⟩ := r
        simp only [hs] at h
        cases hrec : Timer.tickInvokeAll exh invoked { tm with onTick := some fb } with
        | error e => simp [hrec] at h
        | ok evsb =>
          simp only [hrec, Except.ok.injEq, Prod.mk.injEq] at h
          obtain ⟨h1, h2⟩ := h
          subst h2
          exact tickInvokeAll_wb _ _ _ _ hrec

theorem resume_on_run_wb (exh : Nat → Bool) (rt rt1 : RuntimeState) (evs : List Ev)
    (h : EventLoopRuntime.resume_on_run exh rt = .ok (rt1, evs)) :
    WellBracketed exh evs ∧ rt1.currentTask = finalMarker rt.currentTask evs := by
  cases hm : rt.onRun with
  | none => simp [EventLoopRuntime.resume_on_run, hm] at h
  | some m =>
    cases hd : m.done with
    | false => simp [EventLoopRuntime.resume_on_run, hm, hd] at h
    | true =>
      simp only [EventLoopRuntime.resume_on_run, hm, hd, if_true, Except.ok.injEq,
        Prod.mk.injEq] at h
      obtain ⟨h1, h2⟩ := h
      subst h2
      constructor
      · refine ⟨(rt.tasks.filter (fun p => p.2)).map Prod.fst, ?_⟩
        rw [List.map_map]
        rfl
      · rw [← h1]

theorem runInvokeAll_wb (exh : Nat → Bool) (inv : List Unit) (rt rt1 : RuntimeState)
    (evs : List Ev) (h : EventLoopRuntime.runInvokeAll exh inv rt = .ok (rt1, evs)) :
    WellBracketed exh evs ∧ (rt.currentTask = none → rt1.currentTask = none) := by
  induction inv generalizing rt rt1 evs with
  | nil =>
    simp [EventLoopRuntime.runInvokeAll] at h
    obtain ⟨h1, h2⟩ := h
    subst h2
    refine ⟨wellBracketed_nil exh, fun hc => ?_⟩
    rw [← h1, hc]
  | cons u rest ih =>
    simp only [EventLoopRuntime.runInvokeAll] at h
    cases hr : EventLoopRuntime.resume_on_run exh rt with
    | error e => simp [hr] at h
    | ok r =>
      obtain ⟨rta, evsa⟩ := r
      simp only [hr] at h
      cases hrec : EventLoopRuntime.runInvokeAll exh rest rta with
      | error e => simp [hrec] at h
      | ok r2 =>
        obtain ⟨rtb, evsb⟩ := r2
        simp only [hrec, Except.ok.injEq, Prod.mk.injEq] at h
        obtain ⟨h1, h2⟩ := h
        subst h1
        subst h2
        have ha := resume_on_run_wb exh rt rta evsa hr
        have hb := ih rta rtb evsb hrec
        refine ⟨wellBracketed_append ha.1 hb.1, fun hc => ?_⟩
        apply hb.2
        rw [ha.2, hc]
        exact (finalMarker_of_wellBracketed ha.1 none).1

/-- C8: every path by which the Runtime drives `Task.resume()` — initial spawn
(`__start`), the on-run fan-out (`__resume_on_run`), the fetcher message fan-out
(`__resume_on_message`), and the timer tick (`__resume_on_tick`) — produces a
trace that is a concatenation of complete brackets: the marker is set to the task
being resumed immediately before its `resume()` and reset to None immediately
after, including when the resume ends by exhaustion (any value of `exh`); hence
after any such dispatch that started outside a resumption the marker is None. -/
theorem C8_active_task_bracketing (exh beh : Nat → Bool) (rt : RuntimeState)
    (t : Nat) (f : Fetcher) (buf : Msg) (tm : Timer) :
    ((EventLoopRuntime.start exh rt t).2 = bracket exh t ∧
      WellBracketed exh (EventLoopRuntime.start exh rt t).2 ∧
      (EventLoopRuntime.start exh rt t).1.currentTask = none) ∧
    (∀ rt1 evs, EventLoopRuntime.run_entry exh rt = .ok (rt1, evs) →
      WellBracketed exh evs ∧ (rt.currentTask = none → rt1.currentTask = none)) ∧
    (∀ f1 evs del, Fetcher.watcher_callback exh beh f buf = .ok (f1, evs, del) →
      WellBracketed exh evs) ∧
    (∀ tm1 evs, Timer.timer_callback exh tm = .ok (tm1, evs) →
      WellBracketed exh evs) ∧
    (∀ tr, WellBracketed exh tr → finalMarker none tr = none) := by
  refine ⟨⟨rfl, wellBracketed_bracket exh t, rfl⟩, ?_, ?_, ?_, ?_⟩
  · intro rt1 evs h
    cases hm : rt.onRun with
    | none => simp [EventLoopRuntime.run_entry, hm] at h
    | some m =>
      cases hs : m.set_result () with
      | error e => simp [EventLoopRuntime.run_entry, hm, hs] at h
      | ok r =>
        obtain ⟨m1, invoked⟩ := r
        simp only [EventLoopRuntime.run_entry, hm, hs] at h
        have hw := runInvokeAll_wb exh invoked _ rt1 evs h
        exact ⟨hw.1, fun hc => hw.2 hc⟩
  · exact fun f1 evs del h => watcher_wb exh beh f f1 buf evs del h
  · exact fun tm1 evs h => timer_cb_wb exh tm tm1 evs h
  · exact fun tr h => (finalMarker_of_wellBracketed h none).1

/-- Witness for C8 at concrete dispatches: a run entry resuming task 0, a message
fan-out resuming task 1, a timer firing resuming task 3. -/
theorem C8_active_task_bracketing_witness :
    (WellBracketed (fun _ => false)
        [Ev.setCur (some 0), Ev.resume 0 false, Ev.setCur none] ∧
      (⟨true, [], [], [], [(0, true)], none, some ⟨.finished, some (), []⟩, 1⟩ :
        RuntimeState).currentTask = none) ∧
    WellBracketed (fun _ => false) (bracket (fun _ => false) 1) ∧
    WellBracketed (fun _ => false) (bracket (fun _ => false) 3) ∧
    finalMarker none (bracket (fun _ => false) 3) = none := by
  have h := C8_active_task_bracketing (fun _ => false) (fun _ => false)
    ⟨false, [], [], [], [(0, true)], none, some ⟨.pending, none, [()]⟩, 1⟩ 0
    ⟨0, ⟨"n", "T"⟩, [(some 1, true)], some ⟨.pending, none, [()]⟩, none⟩ "m"
    ⟨0, 3, some ⟨.pending, none, [()]⟩, true⟩
  have hrun := h.2.1
    ⟨true, [], [], [], [(0, true)], none, some ⟨.finished, some (), []⟩, 1⟩
    [Ev.setCur (some 0), Ev.resume 0 false, Ev.setCur none] rfl
  have hwat := h.2.2.1
    ⟨0, ⟨"n", "T"⟩, [(some 1, false)], some ⟨.finished, some "m", []⟩, some "m"⟩
    (bracket (fun _ => false) 1) [(1, some "m")] rfl
  have htim := h.2.2.2.1 ⟨0, 3, some ⟨.finished, some (), []⟩, true⟩
    (bracket (fun _ => false) 3) rfl
  exact ⟨⟨hrun.1, hrun.2 rfl⟩, hwat, htim, h.2.2.2.2 _ htim⟩

/-- C10: creating a Timer (via `add_timer`, i.e. `Timer(self)`) succeeds only
while some Task is the current task: if the marker is None, Timer construction
raises RuntimeError; on success the Timer is bound to the Task that was current,
and no Timer operation (`schedule`, `cancel`, `tick`, native firing) ever
rebinds `_task`. -/
theorem C10_timer_binding (rt : RuntimeState) (exh : Nat → Bool) (tm : Timer)
    (hrun : rt.running = false) :
    (rt.currentTask = none → EventLoopRuntime.add_timer rt = .error .runtimeError) ∧
    (∀ t, rt.currentTask = some t →
      ∃ rt1 tm1, EventLoopRuntime.add_timer rt = .ok (rt1, tm1) ∧ tm1.task = t ∧
        rt1.timers = rt.timers ++ [tm1]) ∧
    ((tm.cancel).task = tm.task ∧ (tm.schedule).task = tm.task ∧
      (tm.tick).task = tm.task ∧
      ∀ tm2 evs, Timer.timer_callback exh tm = .ok (tm2, evs) →
        tm2.task = tm.task) := by
  refine ⟨fun hc => ?_, fun t hc => ?_, rfl, rfl, rfl, fun tm2 evs h => ?_⟩
  · simp [EventLoopRuntime.add_timer, Timer.init, hrun, hc]
  · refine ⟨⟨rt.running, rt.timers ++ [⟨rt.nextId, t, none, false⟩], rt.fetchers,
      rt.senders, rt.tasks, rt.currentTask, rt.onRun, rt.nextId + 1⟩,
      ⟨rt.nextId, t, none, false⟩, ?_, rfl, rfl⟩
    simp [EventLoopRuntime.add_timer, Timer.init, hrun, hc]
  · cases hmt : tm.onTick with
    | none =>
      simp [Timer.timer_callback, hmt] at h
      rw [← h.1]
    | some fu =>
      cases hdu : fu.done with
      | true =>
        simp [Timer.timer_callback, hmt, hdu] at h
        rw [← h.1]
      | false =>
        simp only [Timer.timer_callback, hmt, hdu, Bool.false_eq_true, if_false] at h
        cases hs : fu.set_result () with
        | error e => simp [hs] at h
        | ok r =>
          obtain ⟨fb, invoked⟩ := r
          simp only [hs] at h
          cases hrec : Timer.tickInvokeAll exh invoked { tm with onTick := some fb } with
          | error e => simp [hrec] at h
          | ok evsb =>
            simp only [hrec, Except.ok.injEq, Prod.mk.injEq] at h
            rw [← h.1]

/-- Witness for C10: on a concrete pre-run runtime, `add_timer` with no current
task raises; with task 7 current it returns a Timer bound to task 7; the timer
operations preserve the binding. -/
theorem C10_timer_binding_witness :
    EventLoopRuntime.add_timer ⟨false, [], [], [], [], none, none, 0⟩
      = .error .runtimeError ∧
    (∃ rt1 tm1, EventLoopRuntime.add_timer ⟨false, [], [], [], [], some 7, none, 0⟩
        = .ok (rt1, tm1) ∧ tm1.task = 7 ∧ rt1.timers = [] ++ [tm1]) ∧
    (Timer.cancel ⟨0, 7, none, false⟩).task = 7 := by
  have h1 := C10_timer_binding ⟨false, [], [], [], [], none, none, 0⟩
    (fun _ => false) ⟨0, 7, none, false⟩ rfl
  have h2 := C10_timer_binding ⟨false, [], [], [], [], some 7, none, 0⟩
    (fun _ => false) ⟨0, 7, none, false⟩ rfl
  exact ⟨h1.1 rfl, h2.2.1 7 rfl, h1.2.2.1⟩
